import Mathlib

/-
Verification of the video-to-audio extraction pipeline.

The embedding below translates, from the repository sources:
  - the WAV (PCMContainer) serializers in src/lib/audioConverter.ts and
    src/lib/transcriptionApi.ts (convertAudioBufferToWav, floatTo16BitPCM);
  - the MP3 worker completion and progress logic of both worker revisions;
  - the retry/fallback loop of the extraction hook
    (src/hooks/useAudioExtraction.tsx, extractAudio);
  - the transcription response mapping (transcribeAudio);
  - the output file naming (getOutputFileName).

Floating point samples are modelled as rationals; every value the code
produces at the verified points is exactly representable (the scale
factors 0x8000 and 0x7FFF and all tested sample values are exact in
binary floating point), and the JavaScript DataView.setInt16 conversion
(truncation toward zero) is modelled explicitly.
-/

/-- JavaScript number-to-integer conversion used by DataView.setInt16:
truncation toward zero. -/
def jsTrunc (q : ℚ) : ℤ := if q < 0 then ⌈q⌉ else ⌊q⌋

/-- Per-sample conversion shared by both serializer revisions
(audioConverter.ts lines 56-58, transcriptionApi.ts lines 93-95):
clamp to [-1, 1] with Math.max and Math.min, scale negative values by
0x8000 and non-negative values by 0x7FFF, then store via setInt16. -/
def floatTo16 (s : ℚ) : ℤ :=
  let sample := max (-1) (min 1 s)
  jsTrunc (if sample < 0 then sample * 32768 else sample * 32767)

/-- The decoded form of the audio track, matching the AudioBuffer fields
the serializers read: numberOfChannels, sampleRate, length (frames per
channel) and getChannelData (indexed channel first, then frame). -/
structure DecodedAudio where
  numberOfChannels : ℕ
  sampleRate : ℕ
  length : ℕ
  channelData : ℕ → ℕ → ℚ

/-- Little-endian bytes written by DataView.setUint16. -/
def uint16le (n : ℕ) : List ℕ := [n % 256, n / 256 % 256]

/-- Little-endian bytes written by DataView.setUint32. -/
def uint32le (n : ℕ) : List ℕ :=
  [n % 256, n / 256 % 256, n / 65536 % 256, n / 16777216 % 256]

/-- Little-endian bytes written by DataView.setInt16 (two's complement). -/
def int16le (i : ℤ) : List ℕ := uint16le (i % 65536).toNat

/-- Bytes written by writeUTFBytes / writeString: the code units of the
tag string. -/
def utfBytes (s : String) : List ℕ := s.data.map Char.toNat

/-- The fixed 44-byte WAV header. Both revisions write exactly these
fields (audioConverter.ts lines 13-38, transcriptionApi.ts lines 66-83):
RIFF tag, total length 36 + dataLen, WAVE and fmt tags, sub-chunk size
16, PCM format 1, channel count, sample rate, byte rate, block align,
bits per sample 16, data tag, data length. -/
def wavHeader (numberOfChannels sampleRate frames : ℕ) : List ℕ :=
  utfBytes "RIFF" ++ uint32le (36 + frames * numberOfChannels * 2) ++
  utfBytes "WAVE" ++ utfBytes "fmt " ++ uint32le 16 ++ uint16le 1 ++
  uint16le numberOfChannels ++ uint32le sampleRate ++
  uint32le (sampleRate * numberOfChannels * 2) ++
  uint16le (numberOfChannels * 2) ++ uint16le 16 ++
  utfBytes "data" ++ uint32le (frames * numberOfChannels * 2)

namespace AudioConverter

/-- floatTo16BitPCM from src/lib/audioConverter.ts lines 51-62: it reads
only getChannelData(0) and writes its `length` samples consecutively
from byte offset 44. -/
def floatTo16BitPCM (a : DecodedAudio) : List ℤ :=
  (List.range a.length).map fun i => floatTo16 (a.channelData 0 i)

/-- The 16-bit sample slots of the allocated body. The ArrayBuffer has
room for length * numberOfChannels samples and is zero-initialised; the
code only overwrites the first `length` slots (channel 0). -/
def bodySamples (a : DecodedAudio) : List ℤ :=
  floatTo16BitPCM a ++
    List.replicate (a.length * a.numberOfChannels - a.length) 0

/-- convertAudioBufferToWav from src/lib/audioConverter.ts lines 5-43:
44-byte header followed by the body slots. -/
def convertAudioBufferToWav (a : DecodedAudio) : List ℕ :=
  wavHeader a.numberOfChannels a.sampleRate a.length ++
    (bodySamples a).flatMap int16le

end AudioConverter

namespace TranscriptionApi

/-- The write loop of convertAudioBufferToWav from
src/lib/transcriptionApi.ts lines 89-97, inner loop for one channel i:
data[(j * numOfChannels) + i] = clamped-scaled sample j of channel i. -/
def writeChannel (a : DecodedAudio) (i : ℕ) (data : List ℤ) : List ℤ :=
  (List.range a.length).foldl
    (fun acc j =>
      acc.set (j * a.numberOfChannels + i) (floatTo16 (a.channelData i j)))
    data

/-- The full body of convertAudioBufferToWav from transcriptionApi.ts:
a zero-initialised Int16Array of length * numOfChannels slots, written
channel by channel with interleaved indexing. -/
def pcmData (a : DecodedAudio) : List ℤ :=
  (List.range a.numberOfChannels).foldl
    (fun acc i => writeChannel a i acc)
    (List.replicate (a.length * a.numberOfChannels) 0)

/-- convertAudioBufferToWav from src/lib/transcriptionApi.ts lines
57-100: identical 44-byte header, then the interleaved samples. -/
def convertAudioBufferToWav (a : DecodedAudio) : List ℕ :=
  wavHeader a.numberOfChannels a.sampleRate a.length ++
    (pcmData a).flatMap int16le

end TranscriptionApi

/-- Parsing a 16-bit little-endian field back out of a byte buffer
(DataView.getUint16 semantics over the serialized list). -/
def readUint16le (bs : List ℕ) (off : ℕ) : ℕ :=
  bs.getD off 0 + 256 * bs.getD (off + 1) 0

/-- Parsing a 32-bit little-endian field back out of a byte buffer. -/
def readUint32le (bs : List ℕ) (off : ℕ) : ℕ :=
  bs.getD off 0 + 256 * bs.getD (off + 1) 0 +
    65536 * bs.getD (off + 2) 0 + 16777216 * bs.getD (off + 3) 0

namespace AudioConverter

/-- Terminal event of the inline worker of convertAudioBufferToMp3. -/
inductive WorkerTerminal where
  | complete (buffer : List ℕ) (size : ℕ)
  | error (message : String)
deriving DecidableEq

/-- The completion step of the worker in audioConverter.ts lines
553-583: sum the lengths of the accumulated chunks; if the total is
zero, throw (which the catch turns into a terminal error event);
otherwise concatenate and post the terminal complete event. -/
def workerFinalize (mp3Data : List (List ℕ)) : WorkerTerminal :=
  let totalLength := (mp3Data.map List.length).sum
  if totalLength = 0 then
    WorkerTerminal.error "MP3 encoding failed: No MP3 data generated (buffer length is 0)"
  else
    WorkerTerminal.complete mp3Data.flatten totalLength

/-- The progress values posted by the worker of audioConverter.ts lines
517-521: for each block index i with i % 10 = 0 or i = totalBlocks - 1,
post min(100, Math.round((i / totalBlocks) * 100)). -/
def progressEvents (totalBlocks : ℕ) : List ℤ :=
  ((List.range totalBlocks).filter
      (fun i => i % 10 == 0 || i == totalBlocks - 1)).map
    (fun (i : ℕ) => min 100 ⌊(i : ℚ) / (totalBlocks : ℚ) * 100 + 1 / 2⌋)

/-- Per-attempt timeout of convertAudioBufferToMp3 (audioConverter.ts
line 612: 30000 ms). -/
def timeoutMs : ℕ := 30000

end AudioConverter

/-- The primitive effects the attempt-level event handlers perform. -/
inductive HandlerAction where
  | terminateWorker
  | revokeObjectUrl
  | clearErrorTimeout
  | resolvePromise
  | rejectPromise
  | reportProgress
  | appendLog
deriving DecidableEq

/-- Kinds of message posted by the encoding workers. -/
inductive WorkerMsgKind where
  | log
  | progress
  | complete
  | error
deriving DecidableEq

/-- Does a handler settle the attempt promise? -/
def settles (acts : List HandlerAction) : Bool :=
  acts.contains HandlerAction.resolvePromise ||
    acts.contains HandlerAction.rejectPromise

namespace AudioConverter

/-- Actions of the 30-second timeout handler of convertAudioBufferToMp3
(audioConverter.ts lines 608-612): terminate the worker, revoke the
blob URL, reject. -/
def onTimeout : List HandlerAction :=
  [HandlerAction.terminateWorker, HandlerAction.revokeObjectUrl,
   HandlerAction.rejectPromise]

/-- Actions of worker.onmessage (audioConverter.ts lines 615-639),
by message kind. -/
def onMessage : WorkerMsgKind → List HandlerAction
  | WorkerMsgKind.log => [HandlerAction.appendLog]
  | WorkerMsgKind.progress => [HandlerAction.reportProgress]
  | WorkerMsgKind.complete =>
      [HandlerAction.clearErrorTimeout, HandlerAction.terminateWorker,
       HandlerAction.revokeObjectUrl, HandlerAction.appendLog,
       HandlerAction.resolvePromise]
  | WorkerMsgKind.error =>
      [HandlerAction.clearErrorTimeout, HandlerAction.terminateWorker,
       HandlerAction.revokeObjectUrl, HandlerAction.appendLog,
       HandlerAction.rejectPromise]

/-- Actions of worker.onerror (audioConverter.ts lines 642-648). -/
def onWorkerError : List HandlerAction :=
  [HandlerAction.clearErrorTimeout, HandlerAction.terminateWorker,
   HandlerAction.revokeObjectUrl, HandlerAction.appendLog,
   HandlerAction.rejectPromise]

end AudioConverter

namespace TranscriptionApi

/-- Math.ceil(totalSamples / sampleBlockSize) with sampleBlockSize 1152
(transcriptionApi.ts lines 134-136). -/
def totalChunksOf (totalSamples : ℕ) : ℕ := (totalSamples + 1151) / 1152

/-- Math.max(1, Math.floor(totalChunks / 20)) — report about 20 updates
(transcriptionApi.ts line 140). -/
def reportInterval (totalChunks : ℕ) : ℕ := max 1 (totalChunks / 20)

/-- The progress values posted by the worker of createMp3WorkerUrl
(transcriptionApi.ts lines 179-187): currentChunk runs from 1 to
totalChunks; when currentChunk % reportProgressInterval = 0 or
currentChunk = totalChunks, post currentChunk / totalChunks. -/
def progressEvents (totalSamples : ℕ) : List ℚ :=
  let totalChunks := totalChunksOf totalSamples
  let interval := reportInterval totalChunks
  (((List.range totalChunks).map (fun i => i + 1)).filter
      (fun currentChunk =>
        currentChunk % interval == 0 || currentChunk == totalChunks)).map
    (fun (currentChunk : ℕ) => (currentChunk : ℚ) / (totalChunks : ℚ))

/-- Events observable on the worker message channel in a successful
run: the posted progress values, then the terminal complete event. -/
inductive WorkerEvent where
  | progress (value : ℚ)
  | complete
deriving DecidableEq

/-- The message trace of a successful encode in the createMp3WorkerUrl
worker: all progress posts happen inside the chunk loop, strictly
before the single terminal complete post (lines 211-215). -/
def workerTrace (totalSamples : ℕ) : List WorkerEvent :=
  (progressEvents totalSamples).map WorkerEvent.progress ++
    [WorkerEvent.complete]

/-- Actions of worker.onmessage in convertWavToMp3 (transcriptionApi.ts
lines 247-269). A progress message resolves the promise (with an empty
buffer) the first time only; complete and error terminate the worker
and settle. -/
def onMessage (lastProgressReported : Bool) :
    WorkerMsgKind → List HandlerAction
  | WorkerMsgKind.log => []
  | WorkerMsgKind.progress =>
      if lastProgressReported then [] else [HandlerAction.resolvePromise]
  | WorkerMsgKind.complete =>
      [HandlerAction.terminateWorker, HandlerAction.resolvePromise]
  | WorkerMsgKind.error =>
      [HandlerAction.terminateWorker, HandlerAction.rejectPromise]

/-- Actions of worker.onerror in convertWavToMp3 (lines 271-275). -/
def onWorkerError : List HandlerAction :=
  [HandlerAction.terminateWorker, HandlerAction.rejectPromise]

end TranscriptionApi

namespace Extraction

/-- What one conversion attempt delivers to the hook: either the
convertWavToMp3 promise resolves with a result record, or it rejects
(worker error message, load failure, or the 60-second timeout). -/
inductive AttemptOutcome where
  | resolved (mp3Buffer : List ℕ) (progress : ℚ) (format : Option String)
  | rejected (message : String)

/-- Outcome of one extraction run, as visible to the caller of the
hook: how many conversion attempts ran and the final output buffer and
mime type, if any. -/
structure RunResult where
  conversionAttempts : ℕ
  output : Option (List ℕ × String)

/-- The retry loop of extractAudio (useAudioExtraction.tsx lines
59-195). One iteration per conversion attempt while finalBuffer is
still null and fewer than maxAttempts = 3 attempts were made. A
resolved promise goes through handleProgressUpdate (lines 69-111):
the attempt succeeds only when progress = 1 and the buffer is
non-empty, in which case the output is the buffer with the format the
worker reported (defaulting to audio/mpeg). A rejected promise is
caught (lines 157-184): on attempts 1 and 2 the loop retries; when
conversionAttempts has reached maxAttempts the hook falls back to a
copy of the WAV buffer with mime audio/wav. All attempt failures are
caught inside the loop, so no failure escapes to the caller. -/
def attemptLoop (wavBuffer : List ℕ) (outcomes : ℕ → AttemptOutcome) :
    ℕ → ℕ → RunResult
  | attempts, 0 => { conversionAttempts := attempts, output := none }
  | attempts, fuel + 1 =>
    match outcomes (attempts + 1) with
    | AttemptOutcome.resolved buf p fmt =>
        if p = 1 ∧ 0 < buf.length then
          { conversionAttempts := attempts + 1,
            output := some (buf, fmt.getD "audio/mpeg") }
        else
          attemptLoop wavBuffer outcomes (attempts + 1) fuel
    | AttemptOutcome.rejected _ =>
        if 3 ≤ attempts + 1 then
          { conversionAttempts := attempts + 1,
            output := some (wavBuffer, "audio/wav") }
        else
          attemptLoop wavBuffer outcomes (attempts + 1) fuel

/-- A full extraction run after a successful read and decode: serialize
the decoded audio with convertAudioBufferToWav from audioConverter.ts
(the module the hook imports), then run the conversion attempt loop
with maxAttempts = 3. -/
def extractAudio (a : DecodedAudio) (outcomes : ℕ → AttemptOutcome) :
    RunResult :=
  attemptLoop (AudioConverter.convertAudioBufferToWav a) outcomes 0 3

/-- The per-attempt timeout the hook arms around convertWavToMp3
(useAudioExtraction.tsx lines 125-127: 60000 ms). -/
def timeoutMs : ℕ := 60000

/-- Actions of the hook-level timeout handler (useAudioExtraction.tsx
lines 125-127): it only rejects the attempt promise; it holds no
reference to the worker and terminates nothing. -/
def onConversionTimeout : List HandlerAction := [HandlerAction.rejectPromise]

end Extraction

/-- One segment of the transcription response (transcriptionService,
src/unnamed/part_011). Fields that the remote JSON may omit are
optional; `end` is a reserved word, modelled as endTime. -/
structure RawSegment where
  start : Option ℚ
  endTime : Option ℚ
  text : Option String

/-- The raw JSON body of a 2xx transcription response. -/
structure RawResult where
  text : Option String
  language : Option String
  segments : Option (List RawSegment)

/-- A mapped transcription segment. -/
structure TranscriptionSegment where
  id : ℕ
  start : ℚ
  endTime : ℚ
  text : String
deriving DecidableEq

/-- The mapped transcription result. The language field is optional in
the TypeScript type, hence Option here; the mapping below always
assigns it. -/
structure TranscriptionResult where
  text : String
  language : Option String
  segments : List TranscriptionSegment
deriving DecidableEq

/-- JavaScript `v || d` for strings: undefined and the empty string are
falsy. -/
def jsOrString (v : Option String) (d : String) : String :=
  match v with
  | none => d
  | some s => if s = "" then d else s

/-- JavaScript `v || d` for numbers: undefined and 0 are falsy. -/
def jsOrNum (v : Option ℚ) (d : ℚ) : ℚ :=
  match v with
  | none => d
  | some q => if q = 0 then d else q

/-- The response mapping of transcribeAudio (src/unnamed/part_011 lines
107-122): text defaults to the empty string, language defaults to the
string pt, segments map to an empty list unless the response carries an
array, in which case each entry gets its index as id and defaulted
start, end and text fields. -/
def transcribeAudio (raw : RawResult) : TranscriptionResult :=
  { text := jsOrString raw.text ""
    language := some (jsOrString raw.language "pt")
    segments :=
      match raw.segments with
      | some segs =>
          segs.enum.map fun p =>
            { id := p.1
              start := jsOrNum p.2.start 0
              endTime := jsOrNum p.2.endTime 0
              text := jsOrString p.2.text "" }
      | none => [] }

/-- The character class of the extension pattern: characters matched by
the regex class excluding dot and slash. -/
def extChar (c : Char) : Bool := c ≠ '.' && c ≠ '/'

/-- String.replace with the anchored pattern used by getOutputFileName:
the regex matches a final dot followed by one or more characters that
are neither dot nor slash, and replaces that suffix; when there is no
match the name is returned unchanged. Implemented by scanning from the
end: the maximal terminal run of extension characters, preceded by a
dot, is the match. -/
def replaceExtPattern (s : List Char) (ext : List Char) : List Char :=
  let rev := s.reverse
  let run := rev.takeWhile extChar
  match rev.drop run.length with
  | '.' :: base => if run.isEmpty then s else base.reverse ++ ext
  | _ => s

/-- getOutputFileName (useAudioExtraction.tsx lines 216-219): pick the
extension from the current output format and substitute it for the
final extension of the input file name. -/
def getOutputFileName (audioFormat : String) (fileName : String) : String :=
  let extension := if audioFormat = "audio/wav" then ".wav" else ".mp3"
  String.mk (replaceExtPattern fileName.data extension.data)

namespace Examples

/-- A 2-channel, 1-frame decoded input whose two channels carry
different samples (0.5 and -0.5). -/
def stereoHalf : DecodedAudio where
  numberOfChannels := 2
  sampleRate := 8000
  length := 1
  channelData := fun c _ => if c = 0 then 1 / 2 else -1 / 2

/-- A 1-channel, 2-frame decoded input with zero samples. -/
def monoZero : DecodedAudio where
  numberOfChannels := 1
  sampleRate := 8000
  length := 2
  channelData := fun _ _ => 0

/-- An attempt environment in which the encoder capability is
permanently unavailable: every conversion attempt rejects with the
worker load-failure message. -/
def loadFailure : ℕ → Extraction.AttemptOutcome :=
  fun _ =>
    Extraction.AttemptOutcome.rejected "Failed to load MP3 encoder library"

/-- An attempt environment whose first attempt delivers a terminal
complete event carrying a zero-length buffer, after which the
capability fails. -/
def emptyFirst : ℕ → Extraction.AttemptOutcome :=
  fun n =>
    if n = 1 then
      Extraction.AttemptOutcome.resolved [] 1 (some "audio/mpeg")
    else
      Extraction.AttemptOutcome.rejected "Failed to load MP3 encoder library"

/-- The transcription response of end-to-end scenario C. -/
def scenarioC : RawResult where
  text := some "hello"
  language := none
  segments := some []

/-- A transcription response with every optional field missing. -/
def emptyResponse : RawResult where
  text := none
  language := none
  segments := none

end Examples

/- Evaluation lemmas for the sample conversion. -/

theorem floatTo16_of_nonneg (s : ℚ) (h0 : 0 ≤ s) :
    floatTo16 s = ⌊min 1 s * 32767⌋ := by
  have hmin : (0 : ℚ) ≤ min 1 s := le_min (by norm_num) h0
  have hmax : max (-1) (min 1 s) = min 1 s :=
    max_eq_right (le_trans (by norm_num) hmin)
  have hscale : (0 : ℚ) ≤ min 1 s * 32767 := by positivity
  simp only [floatTo16, jsTrunc, hmax, if_neg (not_lt.mpr hmin),
    if_neg (not_lt.mpr hscale)]

theorem floatTo16_of_neg (s : ℚ) (hs : s < 0) :
    floatTo16 s = ⌈max (-1) s * 32768⌉ := by
  have hmin : min 1 s = s := min_eq_right (le_of_lt (lt_trans hs one_pos))
  have hmax : max (-1 : ℚ) s < 0 := max_lt (by norm_num) hs
  have hscale : max (-1 : ℚ) s * 32768 < 0 := by
    have : (0 : ℚ) < 32768 := by norm_num
    exact mul_neg_of_neg_of_pos hmax this
  simp only [floatTo16, jsTrunc, hmin, if_pos hmax, if_pos hscale]

theorem floatTo16_eval_three_halves : floatTo16 (3 / 2) = 32767 := by
  rw [floatTo16_of_nonneg (3 / 2) (by norm_num)]
  have h : min (1 : ℚ) (3 / 2) = 1 := min_eq_left (by norm_num)
  rw [h]
  norm_num

theorem floatTo16_eval_one : floatTo16 1 = 32767 := by
  rw [floatTo16_of_nonneg 1 (by norm_num)]
  norm_num

theorem floatTo16_eval_zero : floatTo16 0 = 0 := by
  rw [floatTo16_of_nonneg 0 (by norm_num)]
  have h : min (1 : ℚ) 0 = 0 := min_eq_right (by norm_num)
  rw [h]
  norm_num

theorem floatTo16_eval_neg_one : floatTo16 (-1) = -32768 := by
  rw [floatTo16_of_neg (-1) (by norm_num)]
  have h : max (-1 : ℚ) (-1) = -1 := max_self (-1)
  rw [h]
  rw [show ((-1 : ℚ) * 32768) = ((-32768 : ℤ) : ℚ) by norm_num]
  exact Int.ceil_intCast (-32768)

theorem floatTo16_eval_neg_three_halves : floatTo16 (-3 / 2) = -32768 := by
  rw [floatTo16_of_neg (-3 / 2) (by norm_num)]
  have h : max (-1 : ℚ) (-3 / 2) = -1 := max_eq_left (by norm_num)
  rw [h]
  rw [show ((-1 : ℚ) * 32768) = ((-32768 : ℤ) : ℚ) by norm_num]
  exact Int.ceil_intCast (-32768)

theorem floatTo16_eval_half : floatTo16 (1 / 2) = 16383 := by
  rw [floatTo16_of_nonneg (1 / 2) (by norm_num)]
  have h : min (1 : ℚ) (1 / 2) = 1 / 2 := min_eq_right (by norm_num)
  rw [h, Int.floor_eq_iff]
  norm_num

theorem floatTo16_eval_neg_half : floatTo16 (-1 / 2) = -16384 := by
  rw [floatTo16_of_neg (-1 / 2) (by norm_num)]
  have h : max (-1 : ℚ) (-1 / 2) = -1 / 2 := max_eq_right (by norm_num)
  rw [h]
  rw [show ((-1 / 2 : ℚ) * 32768) = ((-16384 : ℤ) : ℚ) by norm_num]
  exact Int.ceil_intCast (-16384)

theorem floatTo16_bounds (s : ℚ) :
    -32768 ≤ floatTo16 s ∧ floatTo16 s ≤ 32767 := by
  by_cases hs : s < 0
  · rw [floatTo16_of_neg s hs]
    have hlo : (-1 : ℚ) ≤ max (-1) s := le_max_left _ _
    have hhi : max (-1 : ℚ) s < 0 := max_lt (by norm_num) hs
    constructor
    · have h1 : ((-32768 : ℤ) : ℚ) ≤ max (-1) s * 32768 := by
        have := mul_le_mul_of_nonneg_right hlo (by norm_num : (0 : ℚ) ≤ 32768)
        push_cast
        linarith
      calc (-32768 : ℤ) = ⌈((-32768 : ℤ) : ℚ)⌉ := (Int.ceil_intCast _).symm
        _ ≤ ⌈max (-1 : ℚ) s * 32768⌉ := Int.ceil_le_ceil h1
    · have h2 : max (-1 : ℚ) s * 32768 ≤ 0 := by
        have : (0 : ℚ) < 32768 := by norm_num
        exact le_of_lt (mul_neg_of_neg_of_pos hhi this)
      have : ⌈max (-1 : ℚ) s * 32768⌉ ≤ ⌈(0 : ℚ)⌉ := Int.ceil_le_ceil h2
      simpa using le_trans this (by norm_num)
  · push_neg at hs
    rw [floatTo16_of_nonneg s hs]
    have h0 : (0 : ℚ) ≤ min 1 s := le_min (by norm_num) hs
    have h1 : min 1 s ≤ 1 := min_le_left _ _
    constructor
    · have : (0 : ℤ) ≤ ⌊min 1 s * 32767⌋ := by
        apply Int.le_floor.mpr
        push_cast
        positivity
      linarith
    · have h2 : min 1 s * 32767 ≤ ((32767 : ℤ) : ℚ) := by
        have := mul_le_mul_of_nonneg_right h1 (by norm_num : (0 : ℚ) ≤ 32767)
        push_cast
        linarith
      calc ⌊min 1 s * 32767⌋ ≤ ⌊((32767 : ℤ) : ℚ)⌋ := Int.floor_le_floor h2
        _ = 32767 := Int.floor_intCast _

/- Unfolding lemmas for the conversion attempt loop. -/

theorem attemptLoop_retry (wav : List ℕ)
    (out : ℕ → Extraction.AttemptOutcome) (k fuel : ℕ) (m : String)
    (h : out (k + 1) = Extraction.AttemptOutcome.rejected m)
    (hk : k + 1 < 3) :
    Extraction.attemptLoop wav out k (fuel + 1) =
      Extraction.attemptLoop wav out (k + 1) fuel := by
  conv_lhs => rw [Extraction.attemptLoop]
  rw [h]
  simp only [if_neg (by omega : ¬ 3 ≤ k + 1)]

theorem attemptLoop_fallback (wav : List ℕ)
    (out : ℕ → Extraction.AttemptOutcome) (k fuel : ℕ) (m : String)
    (h : out (k + 1) = Extraction.AttemptOutcome.rejected m)
    (hk : 3 ≤ k + 1) :
    Extraction.attemptLoop wav out k (fuel + 1) =
      { conversionAttempts := k + 1, output := some (wav, "audio/wav") } := by
  conv_lhs => rw [Extraction.attemptLoop]
  rw [h]
  simp only [if_pos hk]

theorem attemptLoop_skip_incomplete (wav : List ℕ)
    (out : ℕ → Extraction.AttemptOutcome) (k fuel : ℕ)
    (buf : List ℕ) (p : ℚ) (fmt : Option String)
    (h : out (k + 1) = Extraction.AttemptOutcome.resolved buf p fmt)
    (hfail : ¬ (p = 1 ∧ 0 < buf.length)) :
    Extraction.attemptLoop wav out k (fuel + 1) =
      Extraction.attemptLoop wav out (k + 1) fuel := by
  conv_lhs => rw [Extraction.attemptLoop]
  rw [h]
  simp only [if_neg hfail]

theorem attemptLoop_output_cases (wav : List ℕ)
    (out : ℕ → Extraction.AttemptOutcome) :
    ∀ (fuel k : ℕ) (b : List ℕ) (f : String),
      (Extraction.attemptLoop wav out k fuel).output = some (b, f) →
      0 < b.length ∨ (b = wav ∧ f = "audio/wav") := by
  intro fuel
  induction fuel with
  | zero =>
    intro k b f h
    simp [Extraction.attemptLoop] at h
  | succ fuel ih =>
    intro k b f h
    rw [Extraction.attemptLoop] at h
    cases hout : out (k + 1) with
    | resolved buf p fmt =>
      rw [hout] at h
      dsimp only at h
      by_cases hc : p = 1 ∧ 0 < buf.length
      · rw [if_pos hc] at h
        simp only [Option.some.injEq, Prod.mk.injEq] at h
        exact Or.inl (h.1 ▸ hc.2)
      · rw [if_neg hc] at h
        exact ih (k + 1) b f h
    | rejected m =>
      rw [hout] at h
      dsimp only at h
      by_cases hk : 3 ≤ k + 1
      · rw [if_pos hk] at h
        simp only [Option.some.injEq, Prod.mk.injEq] at h
        exact Or.inr ⟨h.1.symm, h.2.symm⟩
      · rw [if_neg hk] at h
        exact ih (k + 1) b f h

theorem attemptLoop_all_rejected (wav : List ℕ)
    (out : ℕ → Extraction.AttemptOutcome)
    (h1 : ∃ m, out 1 = Extraction.AttemptOutcome.rejected m)
    (h2 : ∃ m, out 2 = Extraction.AttemptOutcome.rejected m)
    (h3 : ∃ m, out 3 = Extraction.AttemptOutcome.rejected m) :
    Extraction.attemptLoop wav out 0 3 =
      { conversionAttempts := 3, output := some (wav, "audio/wav") } := by
  obtain ⟨m1, e1⟩ := h1
  obtain ⟨m2, e2⟩ := h2
  obtain ⟨m3, e3⟩ := h3
  have s1 := attemptLoop_retry wav out 0 2 m1 e1 (by omega)
  have s2 := attemptLoop_retry wav out 1 1 m2 e2 (by omega)
  have s3 := attemptLoop_fallback wav out 2 0 m3 e3 (by omega)
  norm_num at s1 s2 s3
  rw [s1, s2, s3]

theorem attemptLoop_all_empty_complete (wav : List ℕ)
    (out : ℕ → Extraction.AttemptOutcome)
    (h : ∀ n, ∃ fmt, out n = Extraction.AttemptOutcome.resolved [] 1 fmt) :
    Extraction.attemptLoop wav out 0 3 =
      { conversionAttempts := 3, output := none } := by
  obtain ⟨f1, e1⟩ := h 1
  obtain ⟨f2, e2⟩ := h 2
  obtain ⟨f3, e3⟩ := h 3
  have hfail : ¬ ((1 : ℚ) = 1 ∧ 0 < ([] : List ℕ).length) := by simp
  have s1 := attemptLoop_skip_incomplete wav out 0 2 [] 1 f1 e1 hfail
  have s2 := attemptLoop_skip_incomplete wav out 1 1 [] 1 f2 e2 hfail
  have s3 := attemptLoop_skip_incomplete wav out 2 0 [] 1 f3 e3 hfail
  norm_num at s1 s2 s3
  rw [s1, s2, s3]
  rw [Extraction.attemptLoop]

/-- C1: in a run where reading and decoding succeeded but every
compressed-encode attempt fails (the encoder capability is permanently
unavailable, so convertWavToMp3 rejects every time), the hook still
finishes with an output whose bytes equal, byte for byte, the WAV
buffer serialized for that run, tagged audio/wav. Every rejection is
caught inside the retry loop, so the run ends in the success path (an
output is produced) and no failure reaches the caller. -/
theorem wav_fallback_on_unavailable (a : DecodedAudio)
    (out : ℕ → Extraction.AttemptOutcome)
    (h : ∀ n, ∃ m, out n = Extraction.AttemptOutcome.rejected m) :
    Extraction.extractAudio a out =
      { conversionAttempts := 3,
        output :=
          some (AudioConverter.convertAudioBufferToWav a, "audio/wav") } :=
  attemptLoop_all_rejected (AudioConverter.convertAudioBufferToWav a) out
    (h 1) (h 2) (h 3)

/-- Witness for C1 at a concrete run: a 1-channel 2-frame decoded input
and an environment where every attempt rejects with the capability
load-failure message. -/
theorem wav_fallback_on_unavailable_check :
    Extraction.extractAudio Examples.monoZero Examples.loadFailure =
      { conversionAttempts := 3,
        output :=
          some (AudioConverter.convertAudioBufferToWav Examples.monoZero,
            "audio/wav") } :=
  wav_fallback_on_unavailable Examples.monoZero Examples.loadFailure
    (fun _ => ⟨"Failed to load MP3 encoder library", rfl⟩)

/-- C3: a job whose accumulated output chunks concatenate to length
zero terminates with an error event, never a complete event
(audioConverter.ts worker, lines 553-565); a resolved attempt whose
terminal buffer is zero-length is treated by the hook as a failed
attempt (the loop moves on to the next attempt, consuming budget); and
a run in which every attempt completes with a zero-length buffer ends
after 3 consumed attempts with no output at all — a zero-length
terminal buffer is never reported as a successful compressed result. -/
theorem empty_output_rejected :
    (∀ mp3Data : List (List ℕ), mp3Data.flatten.length = 0 →
        AudioConverter.workerFinalize mp3Data =
          AudioConverter.WorkerTerminal.error
            "MP3 encoding failed: No MP3 data generated (buffer length is 0)") ∧
    (∀ (wav : List ℕ) (out : ℕ → Extraction.AttemptOutcome)
        (k fuel : ℕ) (buf : List ℕ) (p : ℚ) (fmt : Option String),
        out (k + 1) = Extraction.AttemptOutcome.resolved buf p fmt →
        buf.length = 0 →
        Extraction.attemptLoop wav out k (fuel + 1) =
          Extraction.attemptLoop wav out (k + 1) fuel) ∧
    (∀ (a : DecodedAudio) (out : ℕ → Extraction.AttemptOutcome),
        (∀ n, ∃ fmt, out n = Extraction.AttemptOutcome.resolved [] 1 fmt) →
        Extraction.extractAudio a out =
          { conversionAttempts := 3, output := none }) := by
  refine ⟨?_, ?_, ?_⟩
  · intro mp3Data h
    have hsum : (mp3Data.map List.length).sum = 0 := by
      rw [← List.length_flatten, h]
    simp only [AudioConverter.workerFinalize, hsum, if_pos]
  · intro wav out k fuel buf p fmt hout hlen
    exact attemptLoop_skip_incomplete wav out k fuel buf p fmt hout
      (fun hc => by omega)
  · intro a out h
    exact attemptLoop_all_empty_complete
      (AudioConverter.convertAudioBufferToWav a) out h

/-- Witness for C3: the worker finalization of two empty chunks is the
error event; a first-attempt zero-length complete makes the loop move
to attempt 2; a run of three zero-length completes yields 3 attempts
and no output. -/
theorem empty_output_rejected_check :
    AudioConverter.workerFinalize [[], []] =
      AudioConverter.WorkerTerminal.error
        "MP3 encoding failed: No MP3 data generated (buffer length is 0)" ∧
    Extraction.attemptLoop [5] Examples.emptyFirst 0 (2 + 1) =
      Extraction.attemptLoop [5] Examples.emptyFirst 1 2 ∧
    Extraction.extractAudio Examples.monoZero
        (fun _ => Extraction.AttemptOutcome.resolved [] 1 none) =
      { conversionAttempts := 3, output := none } :=
  ⟨empty_output_rejected.1 [[], []] rfl,
   empty_output_rejected.2.1 [5] Examples.emptyFirst 0 2 [] 1
     (some "audio/mpeg") rfl rfl,
   empty_output_rejected.2.2 Examples.monoZero _ (fun _ => ⟨none, rfl⟩)⟩

/-- C4 counterexample: in a run where every attempt fails with the
non-transient capability load failure, the hook does not fall back
immediately at the first failure — it retries, consuming all 3
attempts of the budget, and only then falls back to the WAV output.
The claim predicts a single attempt followed by immediate fallback for
a non-transient reason; the code performs 3 attempts. -/
theorem nontransient_failure_retried :
    (Extraction.extractAudio Examples.monoZero
        Examples.loadFailure).conversionAttempts = 3 ∧
    Extraction.attemptLoop
        (AudioConverter.convertAudioBufferToWav Examples.monoZero)
        Examples.loadFailure 0 3 ≠
      { conversionAttempts := 1,
        output :=
          some (AudioConverter.convertAudioBufferToWav Examples.monoZero,
            "audio/wav") } := by
  have h := attemptLoop_all_rejected
    (AudioConverter.convertAudioBufferToWav Examples.monoZero)
    Examples.loadFailure
    ⟨"Failed to load MP3 encoder library", rfl⟩
    ⟨"Failed to load MP3 encoder library", rfl⟩
    ⟨"Failed to load MP3 encoder library", rfl⟩
  constructor
  · show (Extraction.attemptLoop _ _ 0 3).conversionAttempts = 3
    rw [h]
  · rw [h]
    intro heq
    have : (3 : ℕ) = 1 := congrArg Extraction.RunResult.conversionAttempts heq
    omega

/-- C4 amended: the hook does not classify failure reasons. Every
failed attempt — transient or not, including the non-transient
capability load failure — consumes one unit of the retry budget of 3;
while fewer than 3 attempts have run, a failure leads to a retry, and
the fallback to the uncompressed WAV output happens exactly when the
third attempt fails. -/
theorem uniform_retry_budget :
    (∀ (wav : List ℕ) (out : ℕ → Extraction.AttemptOutcome)
        (k fuel : ℕ) (m : String),
        out (k + 1) = Extraction.AttemptOutcome.rejected m → k + 1 < 3 →
        Extraction.attemptLoop wav out k (fuel + 1) =
          Extraction.attemptLoop wav out (k + 1) fuel) ∧
    (∀ (wav : List ℕ) (out : ℕ → Extraction.AttemptOutcome)
        (fuel : ℕ) (m : String),
        out 3 = Extraction.AttemptOutcome.rejected m →
        Extraction.attemptLoop wav out 2 (fuel + 1) =
          { conversionAttempts := 3,
            output := some (wav, "audio/wav") }) := by
  refine ⟨?_, ?_⟩
  · intro wav out k fuel m hm hk
    exact attemptLoop_retry wav out k fuel m hm hk
  · intro wav out fuel m hm
    have := attemptLoop_fallback wav out 2 fuel m hm (by omega)
    norm_num at this
    exact this

/-- Witness for the amended C4: a capability load failure at attempt 1
is retried, and one at attempt 3 triggers the WAV fallback. -/
theorem uniform_retry_budget_check :
    Extraction.attemptLoop [5] Examples.loadFailure 0 (1 + 1) =
      Extraction.attemptLoop [5] Examples.loadFailure 1 1 ∧
    Extraction.attemptLoop [5] Examples.loadFailure 2 (0 + 1) =
      { conversionAttempts := 3, output := some ([5], "audio/wav") } :=
  ⟨uniform_retry_budget.1 [5] Examples.loadFailure 0 1
     "Failed to load MP3 encoder library" rfl (by omega),
   uniform_retry_budget.2 [5] Examples.loadFailure 0
     "Failed to load MP3 encoder library" rfl⟩

/-- C7: the clamp law of the shared float-to-16-bit conversion — the
samples 1.5, 1.0, 0.0, -1.0, -1.5 serialize to 32767, 32767, 0,
-32768, -32768 — and, for every sample value, the converted integer
lies in [-32768, 32767], so the 16-bit write never wraps or
overflows. -/
theorem clamp_law :
    floatTo16 (3 / 2) = 32767 ∧ floatTo16 1 = 32767 ∧ floatTo16 0 = 0 ∧
    floatTo16 (-1) = -32768 ∧ floatTo16 (-3 / 2) = -32768 ∧
    ∀ s : ℚ, -32768 ≤ floatTo16 s ∧ floatTo16 s ≤ 32767 :=
  ⟨floatTo16_eval_three_halves, floatTo16_eval_one, floatTo16_eval_zero,
   floatTo16_eval_neg_one, floatTo16_eval_neg_three_halves,
   floatTo16_bounds⟩

/-- C2 (code evaluated at the failing input): on a 2-channel input
whose channels carry 0.5 and -0.5, the body written by
audioConverter.ts floatTo16BitPCM is [16383, 0] — only channel 0 is
written, the second interleaved slot stays zero — while the body the
claim describes (and that transcriptionApi.ts convertAudioBufferToWav
writes) interleaves both channels as [16383, -16384]. -/
theorem channel_zero_only_body :
    AudioConverter.bodySamples Examples.stereoHalf = [16383, 0] ∧
    TranscriptionApi.pcmData Examples.stereoHalf = [16383, -16384] ∧
    AudioConverter.bodySamples Examples.stereoHalf ≠
      TranscriptionApi.pcmData Examples.stereoHalf := by
  have h1 : AudioConverter.bodySamples Examples.stereoHalf = [16383, 0] := by
    unfold AudioConverter.bodySamples AudioConverter.floatTo16BitPCM
      Examples.stereoHalf
    simp [List.range_succ]
    rw [show (2⁻¹ : ℚ) = 1 / 2 by norm_num]
    exact floatTo16_eval_half
  have h2 : TranscriptionApi.pcmData Examples.stereoHalf =
      [16383, -16384] := by
    unfold TranscriptionApi.pcmData TranscriptionApi.writeChannel
      Examples.stereoHalf
    simp [List.range_succ]
    rw [show (2⁻¹ : ℚ) = 1 / 2 by norm_num]
    exact ⟨floatTo16_eval_half, floatTo16_eval_neg_half⟩
  refine ⟨h1, h2, ?_⟩
  rw [h1, h2]
  decide

/-- C5 counterexample: the 60-second per-attempt timeout armed by the
hook around convertWavToMp3 (useAudioExtraction.tsx lines 125-127) is
an exit path of the attempt — it settles the attempt promise by
rejecting — yet its handler performs no worker termination: the
in-flight worker is left running. This refutes the claim that on
every exit path of an attempt the background worker is forcibly
terminated. -/
theorem hook_timeout_leaves_worker :
    settles Extraction.onConversionTimeout = true ∧
    HandlerAction.terminateWorker ∉ Extraction.onConversionTimeout := by
  decide

/-- C5 amended: both per-attempt timeouts lie in the 30-60 second
range (30 s in convertAudioBufferToMp3, 60 s in the hook).
convertAudioBufferToMp3 terminates its worker on every settling exit
path — terminal complete message, terminal error message, worker
error, and its own timeout — and its non-settling handlers (log,
progress) terminate nothing. In the convertWavToMp3 pipeline the
worker is terminated on the terminal complete and error messages and
on worker error; the hook-level timeout, however, only rejects the
attempt promise and does not terminate the in-flight worker. -/
theorem per_attempt_timeout_and_terminate :
    (30000 ≤ AudioConverter.timeoutMs ∧ AudioConverter.timeoutMs ≤ 60000) ∧
    (30000 ≤ Extraction.timeoutMs ∧ Extraction.timeoutMs ≤ 60000) ∧
    (settles AudioConverter.onTimeout = true ∧
      HandlerAction.terminateWorker ∈ AudioConverter.onTimeout) ∧
    (HandlerAction.terminateWorker ∈
        AudioConverter.onMessage WorkerMsgKind.complete ∧
      HandlerAction.terminateWorker ∈
        AudioConverter.onMessage WorkerMsgKind.error ∧
      HandlerAction.terminateWorker ∈ AudioConverter.onWorkerError) ∧
    (settles (AudioConverter.onMessage WorkerMsgKind.log) = false ∧
      settles (AudioConverter.onMessage WorkerMsgKind.progress) = false) ∧
    (HandlerAction.terminateWorker ∈
        TranscriptionApi.onMessage true WorkerMsgKind.complete ∧
      HandlerAction.terminateWorker ∈
        TranscriptionApi.onMessage false WorkerMsgKind.complete ∧
      HandlerAction.terminateWorker ∈
        TranscriptionApi.onMessage true WorkerMsgKind.error ∧
      HandlerAction.terminateWorker ∈
        TranscriptionApi.onMessage false WorkerMsgKind.error ∧
      HandlerAction.terminateWorker ∈ TranscriptionApi.onWorkerError) ∧
    Extraction.onConversionTimeout = [HandlerAction.rejectPromise] := by
  decide

theorem filter_map_last (n : ℕ) (hn : 0 < n) (p : ℕ → Bool) (f : ℕ → ℚ)
    (hp : p n = true) :
    ((((List.range n).map (fun i => i + 1)).filter p).map f).getLast? =
      some (f n) := by
  obtain ⟨m, rfl⟩ : ∃ m, n = m + 1 := ⟨n - 1, by omega⟩
  rw [List.range_succ, List.map_append, List.filter_append, List.map_append]
  simp only [List.map_cons, List.map_nil, List.filter_cons, hp,
    if_pos trivial, List.filter_nil]
  rw [List.getLast?_concat]

theorem ta_progressEvents_shape (t : ℕ) :
    TranscriptionApi.progressEvents t =
      (((List.range (TranscriptionApi.totalChunksOf t)).map
            (fun i => i + 1)).filter
          (fun currentChunk =>
            currentChunk %
                  TranscriptionApi.reportInterval
                    (TranscriptionApi.totalChunksOf t) ==
                0 ||
              currentChunk == TranscriptionApi.totalChunksOf t)).map
        (fun (currentChunk : ℕ) =>
          (currentChunk : ℚ) / ((TranscriptionApi.totalChunksOf t : ℕ) : ℚ)) := rfl

/-- C6 counterexample: on a 1152-sample job the createMp3WorkerUrl
worker has exactly one chunk, and at that final chunk it posts a pure
progress event carrying exactly 1.0 — before the terminal complete
event. The successful-run trace is [progress 1.0, complete], so the
value 1.0 is reached at a plain progress event strictly before the
terminal event, refuting the claim that 1.0 occurs only at the
terminal complete event. -/
theorem progress_one_before_terminal :
    TranscriptionApi.workerTrace 1152 =
      [TranscriptionApi.WorkerEvent.progress 1,
       TranscriptionApi.WorkerEvent.complete] := by
  unfold TranscriptionApi.workerTrace
  rw [ta_progressEvents_shape]
  norm_num [TranscriptionApi.totalChunksOf, TranscriptionApi.reportInterval,
    List.range_succ]

/-- C6 amended: for every successful encoder run the emitted progress
sequence is monotonically non-decreasing (in both worker revisions),
and the last progress value emitted — at the final chunk, before or at
the terminal complete event — is exactly 1.0 in the createMp3WorkerUrl
worker. (The original claim that 1.0 appears only at the terminal
event is refuted by the counterexample.) -/
theorem progress_monotone_and_last_one (t N : ℕ) (ht : 0 < t)
    (hN : 0 < N) :
    List.Pairwise (· ≤ ·) (TranscriptionApi.progressEvents t) ∧
    (TranscriptionApi.progressEvents t).getLast? = some 1 ∧
    List.Pairwise (· ≤ ·) (AudioConverter.progressEvents N) := by
  have htc : 0 < TranscriptionApi.totalChunksOf t := by
    unfold TranscriptionApi.totalChunksOf
    omega
  have hnq : (0 : ℚ) < (TranscriptionApi.totalChunksOf t : ℚ) := by
    exact_mod_cast htc
  refine ⟨?_, ?_, ?_⟩
  · rw [ta_progressEvents_shape]
    have h1 : ((List.range (TranscriptionApi.totalChunksOf t)).map
        (fun i => i + 1)).Pairwise (· < ·) :=
      (List.pairwise_lt_range _).map (fun i => i + 1)
        (fun a b hab => show a + 1 < b + 1 by omega)
    have h2 : (((List.range (TranscriptionApi.totalChunksOf t)).map
        (fun i => i + 1)).filter
          (fun currentChunk =>
            currentChunk %
                  TranscriptionApi.reportInterval
                    (TranscriptionApi.totalChunksOf t) ==
                0 ||
              currentChunk == TranscriptionApi.totalChunksOf t)).Pairwise
        (· < ·) :=
      h1.sublist (List.filter_sublist _)
    refine h2.map _ ?_
    intro a b hab
    exact (div_le_div_iff_of_pos_right hnq).mpr (by exact_mod_cast hab.le)
  · rw [ta_progressEvents_shape]
    rw [filter_map_last _ htc _ _ (by simp)]
    rw [div_self (ne_of_gt hnq)]
  · unfold AudioConverter.progressEvents
    have h2 : ((List.range N).filter
        (fun i => i % 10 == 0 || i == N - 1)).Pairwise (· < ·) :=
      (List.pairwise_lt_range _).sublist (List.filter_sublist _)
    refine h2.map _ ?_
    intro a b hab
    have hNq : (0 : ℚ) < (N : ℚ) := by exact_mod_cast hN
    have hdiv : (a : ℚ) / (N : ℚ) * 100 + 1 / 2 ≤
        (b : ℚ) / (N : ℚ) * 100 + 1 / 2 := by
      have h := (div_le_div_iff_of_pos_right hNq).mpr
        (by exact_mod_cast hab.le : (a : ℚ) ≤ b)
      linarith
    exact min_le_min (le_refl 100) (Int.floor_le_floor hdiv)

/-- Witness for the amended C6 at a concrete successful run: 2500
samples (3 chunks) for the createMp3WorkerUrl worker and 25 blocks for
the audioConverter worker. -/
theorem progress_monotone_and_last_one_check :
    List.Pairwise (· ≤ ·) (TranscriptionApi.progressEvents 2500) ∧
    (TranscriptionApi.progressEvents 2500).getLast? = some 1 ∧
    List.Pairwise (· ≤ ·) (AudioConverter.progressEvents 25) :=
  progress_monotone_and_last_one 2500 25 (by decide) (by decide)

theorem wavHeader_length (C r f : ℕ) : (wavHeader C r f).length = 44 := rfl

set_option maxHeartbeats 1600000 in
theorem wavHeader_fields (C r f : ℕ) :
    (wavHeader C r f).getD 4 0 = (36 + f * C * 2) % 256 ∧
    (wavHeader C r f).getD 5 0 = (36 + f * C * 2) / 256 % 256 ∧
    (wavHeader C r f).getD 6 0 = (36 + f * C * 2) / 65536 % 256 ∧
    (wavHeader C r f).getD 7 0 = (36 + f * C * 2) / 16777216 % 256 ∧
    (wavHeader C r f).getD 22 0 = C % 256 ∧
    (wavHeader C r f).getD 23 0 = C / 256 % 256 ∧
    (wavHeader C r f).getD 24 0 = r % 256 ∧
    (wavHeader C r f).getD 25 0 = r / 256 % 256 ∧
    (wavHeader C r f).getD 26 0 = r / 65536 % 256 ∧
    (wavHeader C r f).getD 27 0 = r / 16777216 % 256 ∧
    (wavHeader C r f).getD 40 0 = f * C * 2 % 256 ∧
    (wavHeader C r f).getD 41 0 = f * C * 2 / 256 % 256 ∧
    (wavHeader C r f).getD 42 0 = f * C * 2 / 65536 % 256 ∧
    (wavHeader C r f).getD 43 0 = f * C * 2 / 16777216 % 256 :=
  ⟨rfl, rfl, rfl, rfl, rfl, rfl, rfl, rfl, rfl, rfl, rfl, rfl, rfl, rfl⟩

theorem flatMap_int16le_length (l : List ℤ) :
    (l.flatMap int16le).length = 2 * l.length := by
  induction l with
  | nil => rfl
  | cons a tl ih =>
    simp only [List.flatMap_cons, List.length_append, ih, List.length_cons]
    have : (int16le a).length = 2 := rfl
    omega

theorem foldl_length_invariant {α β : Type} (step : List α → β → List α)
    (h : ∀ acc i, (step acc i).length = acc.length) :
    ∀ (l : List β) (data : List α),
      (l.foldl step data).length = data.length := by
  intro l
  induction l with
  | nil => intro data; rfl
  | cons a tl ih =>
    intro data
    rw [List.foldl_cons, ih, h]

theorem pcmData_length (a : DecodedAudio) :
    (TranscriptionApi.pcmData a).length = a.length * a.numberOfChannels := by
  unfold TranscriptionApi.pcmData
  rw [foldl_length_invariant _ ?_ _ _]
  · exact List.length_replicate _ _
  · intro acc i
    unfold TranscriptionApi.writeChannel
    rw [foldl_length_invariant _ ?_ _ _]
    intro acc2 j
    exact List.length_set _ _ _

theorem bodySamples_length (a : DecodedAudio) (hc : 1 ≤ a.numberOfChannels) :
    (AudioConverter.bodySamples a).length =
      a.length * a.numberOfChannels := by
  unfold AudioConverter.bodySamples AudioConverter.floatTo16BitPCM
  rw [List.length_append, List.length_map, List.length_range,
    List.length_replicate]
  have h : a.length ≤ a.length * a.numberOfChannels :=
    Nat.le_mul_of_pos_right _ hc
  omega

/-- C8: for every valid decoded input (within the 16- and 32-bit field
ranges of the header), both serializers produce a buffer of exactly
44 + frames * channels * 2 bytes, and parsing the header fields back
out of the serialized bytes recovers the channel count, the sample
rate, the data byte length frames * channels * 2 and the RIFF total
length 36 + frames * channels * 2; in particular a 2-channel, 44100 Hz
input with 44100 frames per channel serializes to 176444 bytes. -/
theorem wav_header_roundtrip (a : DecodedAudio)
    (hc : 1 ≤ a.numberOfChannels) (hc16 : a.numberOfChannels < 65536)
    (hr : a.sampleRate < 4294967296)
    (hd : 36 + a.length * a.numberOfChannels * 2 < 4294967296) :
    (TranscriptionApi.convertAudioBufferToWav a).length =
      44 + a.length * a.numberOfChannels * 2 ∧
    (AudioConverter.convertAudioBufferToWav a).length =
      44 + a.length * a.numberOfChannels * 2 ∧
    readUint16le (TranscriptionApi.convertAudioBufferToWav a) 22 =
      a.numberOfChannels ∧
    readUint32le (TranscriptionApi.convertAudioBufferToWav a) 24 =
      a.sampleRate ∧
    readUint32le (TranscriptionApi.convertAudioBufferToWav a) 40 =
      a.length * a.numberOfChannels * 2 ∧
    readUint32le (TranscriptionApi.convertAudioBufferToWav a) 4 =
      36 + a.length * a.numberOfChannels * 2 ∧
    (a.numberOfChannels = 2 → a.sampleRate = 44100 → a.length = 44100 →
      (TranscriptionApi.convertAudioBufferToWav a).length = 176444) := by
  have hlenTA : (TranscriptionApi.convertAudioBufferToWav a).length =
      44 + a.length * a.numberOfChannels * 2 := by
    unfold TranscriptionApi.convertAudioBufferToWav
    rw [List.length_append, wavHeader_length, flatMap_int16le_length,
      pcmData_length]
    omega
  have hlenAC : (AudioConverter.convertAudioBufferToWav a).length =
      44 + a.length * a.numberOfChannels * 2 := by
    unfold AudioConverter.convertAudioBufferToWav
    rw [List.length_append, wavHeader_length, flatMap_int16le_length,
      bodySamples_length a hc]
    omega
  obtain ⟨e4, e5, e6, e7, e22, e23, e24, e25, e26, e27, e40, e41, e42,
    e43⟩ := wavHeader_fields a.numberOfChannels a.sampleRate a.length
  have hread : ∀ k, k < 44 →
      (TranscriptionApi.convertAudioBufferToWav a).getD k 0 =
        (wavHeader a.numberOfChannels a.sampleRate a.length).getD k 0 := by
    intro k hk
    unfold TranscriptionApi.convertAudioBufferToWav
    exact List.getD_append _ _ _ _ (by rw [wavHeader_length]; omega)
  refine ⟨hlenTA, hlenAC, ?_, ?_, ?_, ?_, ?_⟩
  · unfold readUint16le
    rw [hread 22 (by omega), hread 23 (by omega), e22, e23]
    omega
  · unfold readUint32le
    rw [hread 24 (by omega), hread 25 (by omega), hread 26 (by omega),
      hread 27 (by omega), e24, e25, e26, e27]
    omega
  · unfold readUint32le
    rw [hread 40 (by omega), hread 41 (by omega), hread 42 (by omega),
      hread 43 (by omega), e40, e41, e42, e43]
    omega
  · unfold readUint32le
    rw [hread 4 (by omega), hread 5 (by omega), hread 6 (by omega),
      hread 7 (by omega), e4, e5, e6, e7]
    omega
  · intro h2 hrate hframes
    rw [hlenTA, h2, hframes]

/-- Witness for C8 at the 1-channel, 8000 Hz, 2-frame example. -/
theorem wav_header_roundtrip_check :
    (TranscriptionApi.convertAudioBufferToWav Examples.monoZero).length =
      44 + 2 * 1 * 2 ∧
    (AudioConverter.convertAudioBufferToWav Examples.monoZero).length =
      44 + 2 * 1 * 2 ∧
    readUint16le
        (TranscriptionApi.convertAudioBufferToWav Examples.monoZero) 22 =
      1 ∧
    readUint32le
        (TranscriptionApi.convertAudioBufferToWav Examples.monoZero) 24 =
      8000 ∧
    readUint32le
        (TranscriptionApi.convertAudioBufferToWav Examples.monoZero) 40 =
      2 * 1 * 2 ∧
    readUint32le
        (TranscriptionApi.convertAudioBufferToWav Examples.monoZero) 4 =
      36 + 2 * 1 * 2 := by
  have h := wav_header_roundtrip Examples.monoZero (by decide) (by decide)
    (by decide) (by decide)
  exact ⟨h.1, h.2.1, h.2.2.1, h.2.2.2.1, h.2.2.2.2.1, h.2.2.2.2.2.1⟩

/-- C9 counterexample: at the scenario-C response (a 200 body with
text hello, an empty segments array and no language), transcribeAudio
does not leave the language unset — the mapping assigns the hardcoded
default string pt (rawResult.language or-defaulted to the pt literal,
part_011 line 113). The claim that a missing language maps to an
unset value is therefore false at this input. -/
theorem missing_language_defaults_pt :
    transcribeAudio Examples.scenarioC =
      { text := "hello", language := some "pt", segments := [] } ∧
    (transcribeAudio Examples.scenarioC).language ≠ none := by
  decide

/-- C9 amended: for every 2xx JSON response, a missing segments array
maps to the empty list (not an error), a missing text maps to the
empty string, and a missing language maps to the default string pt
(always set — never unset); scenario C resolves to text hello,
language pt, empty segments. -/
theorem response_mapping_defaults :
    (∀ raw : RawResult, raw.segments = none →
        (transcribeAudio raw).segments = []) ∧
    (∀ raw : RawResult, raw.text = none →
        (transcribeAudio raw).text = "") ∧
    (∀ raw : RawResult, raw.language = none →
        (transcribeAudio raw).language = some "pt") ∧
    transcribeAudio Examples.scenarioC =
      { text := "hello", language := some "pt", segments := [] } := by
  refine ⟨?_, ?_, ?_, by decide⟩
  · intro raw h
    simp [transcribeAudio, h]
  · intro raw h
    simp [transcribeAudio, h, jsOrString]
  · intro raw h
    simp [transcribeAudio, h, jsOrString]

/-- Witness for the amended C9 at the all-fields-missing response. -/
theorem response_mapping_defaults_check :
    (transcribeAudio Examples.emptyResponse).segments = [] ∧
    (transcribeAudio Examples.emptyResponse).text = "" ∧
    (transcribeAudio Examples.emptyResponse).language = some "pt" :=
  ⟨response_mapping_defaults.1 Examples.emptyResponse rfl,
   response_mapping_defaults.2.1 Examples.emptyResponse rfl,
   response_mapping_defaults.2.2.1 Examples.emptyResponse rfl⟩

theorem takeWhile_append_all (xs ys : List Char)
    (h : ∀ c ∈ xs, extChar c = true) :
    (xs ++ ys).takeWhile extChar = xs ++ ys.takeWhile extChar := by
  induction xs with
  | nil => rfl
  | cons a tl ih =>
    have ha : extChar a = true := h a (by simp)
    simp only [List.cons_append, List.takeWhile_cons, ha, if_pos trivial]
    rw [ih (fun c hc => h c (by simp [hc]))]

theorem drop_takeWhile_eq_dropWhile (p : Char → Bool) (l : List Char) :
    l.drop (l.takeWhile p).length = l.dropWhile p := by
  induction l with
  | nil => rfl
  | cons a t ih =>
    by_cases ha : p a = true
    · simp only [List.takeWhile_cons, List.dropWhile_cons, ha,
        if_pos trivial, List.length_cons, List.drop_succ_cons]
      exact ih
    · have ha' : p a = false := by
        cases hpa : p a
        · rfl
        · exact absurd hpa ha
      simp [List.takeWhile_cons, List.dropWhile_cons, ha']

theorem dropWhile_head_false (p : Char → Bool) (c : Char) (t : List Char) :
    ∀ l : List Char, l.dropWhile p = c :: t → p c = false := by
  intro l
  induction l with
  | nil => intro h; simp at h
  | cons a tl ih =>
    intro h
    by_cases ha : p a = true
    · rw [List.dropWhile_cons, if_pos ha] at h
      exact ih h
    · rw [List.dropWhile_cons, if_neg ha] at h
      obtain ⟨rfl, -⟩ : a = c ∧ tl = t := by
        injection h with h1 h2
        exact ⟨h1, h2⟩
      cases hpa : p a
      · rfl
      · exact absurd hpa ha

theorem replaceExtPattern_match (base e ext : List Char) (he : e ≠ [])
    (hall : ∀ c ∈ e, extChar c = true) :
    replaceExtPattern (base ++ '.' :: e) ext = base ++ ext := by
  unfold replaceExtPattern
  dsimp only
  have hrev : (base ++ '.' :: e).reverse = e.reverse ++ '.' :: base.reverse := by
    simp
  have hallrev : ∀ c ∈ e.reverse, extChar c = true :=
    fun c hc => hall c (List.mem_reverse.mp hc)
  have htake : (e.reverse ++ '.' :: base.reverse).takeWhile extChar =
      e.reverse := by
    rw [takeWhile_append_all _ _ hallrev]
    have : ('.' :: base.reverse).takeWhile extChar = [] := rfl
    rw [this, List.append_nil]
  rw [hrev, htake, List.drop_left]
  have hne : e.reverse.isEmpty = false := by
    cases hcase : e.reverse.isEmpty
    · rfl
    · exact absurd (List.reverse_eq_nil_iff.mp (List.isEmpty_iff.mp hcase))
        he
  simp [hne]

theorem replaceExtPattern_no_dot (s ext : List Char) (h : '.' ∉ s) :
    replaceExtPattern s ext = s := by
  unfold replaceExtPattern
  dsimp only
  rw [drop_takeWhile_eq_dropWhile]
  cases hcase : s.reverse.dropWhile extChar with
  | nil => rfl
  | cons c t =>
    have hpc : extChar c = false := dropWhile_head_false extChar c t _ hcase
    have hcs : c ∈ s := by
      have h1 : c ∈ s.reverse.dropWhile extChar := by
        rw [hcase]; simp
      exact List.mem_reverse.mp ((List.dropWhile_sublist _).mem h1)
    have hc : c = '/' := by
      by_cases hdot : c = '.'
      · exact absurd (hdot ▸ hcs) h
      · by_cases hsl : c = '/'
        · exact hsl
        · simp [extChar, hdot, hsl] at hpc
    subst hc
    rfl

/-- C10: getOutputFileName replaces a final dot-extension (a final dot
followed by one or more characters that are neither dot nor slash)
with .wav exactly when the current output format is audio/wav and with
.mp3 for every other format, keeping the base name; a file name
containing no dot is returned unchanged, with no extension appended. -/
theorem output_filename_replaces_extension :
    (∀ (fmt : String) (base e : List Char), e ≠ [] →
        (∀ c ∈ e, extChar c = true) →
        getOutputFileName fmt (String.mk (base ++ '.' :: e)) =
          String.mk (base ++
            (if fmt = "audio/wav" then ".wav".data else ".mp3".data))) ∧
    (∀ (fmt s : String), '.' ∉ s.data → getOutputFileName fmt s = s) := by
  constructor
  · intro fmt base e he hall
    unfold getOutputFileName
    dsimp only
    show String.mk (replaceExtPattern (base ++ '.' :: e)
        (if fmt = "audio/wav" then (".wav" : String) else ".mp3").data) = _
    rw [replaceExtPattern_match base e _ he hall]
    rw [apply_ite String.data (fmt = "audio/wav") ".wav" ".mp3"]
  · intro fmt s h
    unfold getOutputFileName
    dsimp only
    rw [replaceExtPattern_no_dot s.data _ h]

/-- Witness for C10: movie.mp4 becomes movie.wav under the audio/wav
format, and a dot-free name is unchanged under audio/mpeg. -/
theorem output_filename_replaces_extension_check :
    getOutputFileName "audio/wav"
        (String.mk ("movie".data ++ '.' :: "mp4".data)) =
      String.mk ("movie".data ++
        (if ("audio/wav" : String) = "audio/wav" then ".wav".data
         else ".mp3".data)) ∧
    getOutputFileName "audio/mpeg" "noext" = "noext" :=
  ⟨output_filename_replaces_extension.1 "audio/wav" "movie".data
     "mp4".data (by decide) (by decide),
   output_filename_replaces_extension.2 "audio/mpeg" "noext" (by decide)⟩
